import Mathlib

/-!
Shallow embedding of the Geode mod-creator's file-generation and
project-state model (src/services/modGenerator.ts, src/App.tsx,
src/components/ModForm.tsx), together with theorems checking the
specification's claims about it.

JavaScript `Record<string, T>` objects are modelled as association lists
with JS-object semantics: assignment replaces the value of an existing key
in place and appends a fresh key at the end; `delete` removes the key;
lookup returns the value of the key or `none` (JS `undefined`).
JS numbers are modelled as rationals, and string falsiness (`""` is falsy,
every other string truthy) is made explicit at each use site.
-/

namespace Geode

/-- JS-object lookup: `m[k]`, `none` standing for `undefined`. -/
def rget {α : Type} : List (String × α) → String → Option α
  | [], _ => none
  | (k', v) :: rest, k => if k' = k then some v else rget rest k

/-- JS-object assignment `m[k] = v`: replace in place if the key exists,
append at the end otherwise. -/
def oset {α : Type} : List (String × α) → String → α → List (String × α)
  | [], k, v => [(k, v)]
  | (k', v') :: rest, k, v =>
      if k' = k then (k, v) :: rest else (k', v') :: oset rest k v

/-- JS `delete m[k]`. -/
def rdel {α : Type} (m : List (String × α)) (k : String) : List (String × α) :=
  m.filter (fun e => !(e.1 == k))

/-- A generated file tree: path → content (`GeneratedFiles` in types.ts). -/
abbrev Tree := List (String × String)

/-- JS string-truthiness of an optional string: `undefined` and `""` are falsy. -/
def jsTruthyS : Option String → Bool
  | none => false
  | some s => s ≠ ""

/-- JS `a || b` for strings: `a` when truthy (non-empty), else `b`. -/
def jsOr (a b : String) : String := if a = "" then b else a

/-- JS `s.startsWith(pre)`. -/
def jsStartsWith (s pre : String) : Bool := pre.data.isPrefixOf s.data

/-- JS `s.endsWith(suf)`. -/
def jsEndsWith (s suf : String) : Bool := suf.data.isSuffixOf s.data

/-- JS `s.lastIndexOf(c)`, as an option instead of `-1` for "not found". -/
def lastIndexOfChar : List Char → Char → Option Nat
  | [], _ => none
  | x :: xs, c =>
      match lastIndexOfChar xs c with
      | some j => some (j + 1)
      | none => if x = c then some 0 else none

/-- The three code-template choices (`CppTemplate` in types.ts). -/
inductive CppTemplate
  | menulayer
  | playlayer
  | settings
deriving DecidableEq

/-- The custom-setting type tags (`ModSettingType` in types.ts). -/
inductive ModSettingType
  | bool
  | int
  | float
  | string
deriving DecidableEq

/-- A JS value that can sit in a setting's `default` field
(`boolean | number | string` in types.ts). -/
inductive JsVal
  | b (x : Bool)
  | num (q : Rat)
  | str (s : String)
deriving DecidableEq

/-- A custom setting (`ModSetting` in types.ts). -/
structure ModSetting where
  id : String
  key : String
  name : String
  description : String
  type : ModSettingType
  default : JsVal
deriving DecidableEq

/-- The per-platform boolean map inside `ModData`. -/
structure Platforms where
  win : Bool
  mac : Bool
  android : Bool
  ios : Bool
deriving DecidableEq

/-- The mod configuration (`ModData` in types.ts). -/
structure ModData where
  id : String
  name : String
  version : String
  developer : String
  description : String
  logo : Option String
  dependencies : String
  repository : String
  cppTemplate : CppTemplate
  includeCi : Bool
  platforms : Platforms
  gdVersion : String
  geodeVersion : String
  tags : String
  providesApi : Bool
  earlyLoad : Bool
  settings : List ModSetting
deriving DecidableEq

/-- A JSON value, for the object built by `generateModJson` before it is
stringified. Object members keep insertion order, as JS objects do. -/
inductive Json
  | str (s : String)
  | num (q : Rat)
  | bool (b : Bool)
  | arr (elems : List Json)
  | obj (members : List (String × Json))

/-- A parsed dependency token (`\x7bid, required, version\x7d` object in
`generateModJson`). -/
structure DepEntry where
  id : String
  required : Bool
  version : String
deriving DecidableEq

/-- The dependency-token parser: the body of the `.map` over dependency
tokens in `generateModJson` (modGenerator.ts lines 34-44). Splits on the
last `@` when that `@` is not the first character; the empty version
falls back to `*` (JS `version || "*"`). -/
def parseDependency (depString : String) : DepEntry :=
  match lastIndexOfChar depString.data '@' with
  | some lastAt =>
      if 0 < lastAt then
        { id := ⟨depString.data.take lastAt⟩
          required := true
          version :=
            if depString.data.drop (lastAt + 1) = [] then "*"
            else ⟨depString.data.drop (lastAt + 1)⟩ }
      else
        { id := depString, required := true, version := "*" }
  | none => { id := depString, required := true, version := "*" }

/-- JS `s.split(',').map(t => t.trim()).filter(t => t)`, used for both the
tags and the dependencies fields. -/
def splitTrimFilter (s : String) : List String :=
  ((s.splitOn ",").map String.trim).filter (fun t => t ≠ "")

/-- The `gd` platform-version object of `generateModJson`
(modGenerator.ts lines 4-8): one key per enabled platform, each mapped to
`data.gdVersion || "*"`. -/
def gdMap (data : ModData) : List (String × String) :=
  let gd : List (String × String) := []
  let gd := if data.platforms.win then oset gd "win" (jsOr data.gdVersion "*") else gd
  let gd := if data.platforms.mac then oset gd "mac" (jsOr data.gdVersion "*") else gd
  let gd := if data.platforms.android then oset gd "android" (jsOr data.gdVersion "*") else gd
  let gd := if data.platforms.ios then oset gd "ios" (jsOr data.gdVersion "*") else gd
  gd

/-- JS truthiness of a `boolean | number | string` value. -/
def jsTruthyV : JsVal → Bool
  | .b x => x
  | .num q => q ≠ 0
  | .str s => s ≠ ""

/-- Digits-to-number helper for the `parseInt`/`parseFloat` models. -/
def digitsToNat (ds : List Char) : Nat :=
  ds.foldl (fun a c => a * 10 + (c.toNat - 48)) 0

/-- Model of JS `parseInt(s, 10) || 0`: skip leading whitespace, optional
sign, then the longest digit prefix; `NaN` (no digits) becomes `0`. -/
def jsParseIntOr0 (s : String) : Rat :=
  let t := s.trim
  let core : List Char → Rat := fun cs =>
    let ds := cs.takeWhile Char.isDigit
    if ds = [] then 0 else (digitsToNat ds : Rat)
  match t.data with
  | '-' :: rest => -(core rest)
  | '+' :: rest => core rest
  | cs => core cs

/-- Model of JS `parseFloat(s) || 0`: optional sign, integer digits,
optional fractional digits; `NaN` (no digits at all) becomes `0`. -/
def jsParseFloatOr0 (s : String) : Rat :=
  let t := s.trim
  let core : List Char → Rat := fun cs =>
    let intDs := cs.takeWhile Char.isDigit
    let rest := cs.drop intDs.length
    let fracDs :=
      match rest with
      | '.' :: r => r.takeWhile Char.isDigit
      | _ => []
    if intDs = [] ∧ fracDs = [] then 0
    else (digitsToNat intDs : Rat) + (digitsToNat fracDs : Rat) / ((10 : Rat) ^ fracDs.length)
  match t.data with
  | '-' :: rest => -(core rest)
  | '+' :: rest => core rest
  | cs => core cs

/-- JS number-to-string for the rationals that arise here: integers print
without a decimal point, terminating decimals print their digits. -/
def numToString (q : Rat) : String :=
  let sign := if q < 0 then "-" else ""
  if q.den = 1 then sign ++ toString q.num.natAbs
  else
    match (List.range 40).find? (fun k => 10 ^ k % q.den = 0) with
    | some k =>
        let scaled := q.num.natAbs * (10 ^ k / q.den)
        let digits := toString scaled
        let padded := "".pushn '0' (k + 1 - digits.length) ++ digits
        let ip := padded.dropRight k
        let fp : String := ⟨((padded.takeRight k).data.reverse.dropWhile (· = '0')).reverse⟩
        sign ++ ip ++ "." ++ fp
    | none => toString q

/-- String form of a JS value (`String(x)`). -/
def jsString : JsVal → String
  | .b true => "true"
  | .b false => "false"
  | .num q => numToString q
  | .str s => s

/-- Name of a setting type tag as it appears in `mod.json`. -/
def typeName : ModSettingType → String
  | .bool => "bool"
  | .int => "int"
  | .float => "float"
  | .string => "string"

/-- The type-coerced default written into `mod.json` for one setting
(modGenerator.ts lines 54-69). -/
def coercedDefault (s : ModSetting) : Json :=
  match s.type with
  | .bool => .bool (jsTruthyV s.default)
  | .int => .num (jsParseIntOr0 (jsString s.default))
  | .float => .num (jsParseFloatOr0 (jsString s.default))
  | .string => .str (jsString s.default)

/-- The `mod.json` member for one setting. -/
def settingJson (s : ModSetting) : Json :=
  .obj [("name", .str s.name), ("description", .str s.description),
        ("type", .str (typeName s.type)), ("default", coercedDefault s)]

/-- One dependency entry as JSON. -/
def depJson (d : DepEntry) : Json :=
  .obj [("id", .str d.id), ("required", .bool d.required), ("version", .str d.version)]

/-- The base `modJson` object literal (modGenerator.ts lines 10-18). -/
def mjBase (data : ModData) : List (String × Json) :=
  [("geode", .str (jsOr data.geodeVersion "2.0.0-beta.26")),
   ("gd", .obj ((gdMap data).map (fun e => (e.1, Json.str e.2)))),
   ("id", .str (jsOr data.id "com.developer.modname")),
   ("name", .str (jsOr data.name "My Awesome Mod")),
   ("version", .str (jsOr data.version "v1.0.0")),
   ("developer", .str (jsOr data.developer "Your Name")),
   ("description", .str (jsOr data.description "A new mod for Geometry Dash"))]

/-- `if (data.logo) modJson.icon = "logo.png";` -/
def mjIconStep (data : ModData) (m : List (String × Json)) : List (String × Json) :=
  if jsTruthyS data.logo then oset m "icon" (.str "logo.png") else m

/-- `if (data.repository) modJson.repository = data.repository;` -/
def mjRepoStep (data : ModData) (m : List (String × Json)) : List (String × Json) :=
  if data.repository ≠ "" then oset m "repository" (.str data.repository) else m

/-- `if (data.providesApi) modJson.api = true;` -/
def mjApiStep (data : ModData) (m : List (String × Json)) : List (String × Json) :=
  if data.providesApi then oset m "api" (.bool true) else m

/-- `if (data.earlyLoad) modJson['early-load'] = true;` -/
def mjEarlyStep (data : ModData) (m : List (String × Json)) : List (String × Json) :=
  if data.earlyLoad then oset m "early-load" (.bool true) else m

/-- The tags block (modGenerator.ts lines 25-27). -/
def mjTagsStep (data : ModData) (m : List (String × Json)) : List (String × Json) :=
  if data.tags ≠ "" then oset m "tags" (.arr ((splitTrimFilter data.tags).map .str)) else m

/-- The dependencies block (modGenerator.ts lines 29-49). -/
def mjDepsStep (data : ModData) (m : List (String × Json)) : List (String × Json) :=
  if data.dependencies ≠ "" then
    let dependencies := (splitTrimFilter data.dependencies).map parseDependency
    if dependencies.length > 0 then
      oset m "dependencies" (.arr (dependencies.map depJson))
    else m
  else m

/-- The settings block (modGenerator.ts lines 51-78): an object mapping each
setting's key to its entry, built by successive JS assignments. -/
def mjSettingsStep (data : ModData) (m : List (String × Json)) : List (String × Json) :=
  if data.settings.length > 0 then
    oset m "settings"
      (.obj (data.settings.foldl (fun acc s => oset acc s.key (settingJson s)) []))
  else m

/-- The full `modJson` object of `generateModJson`, before stringification. -/
def generateModJsonMembers (data : ModData) : List (String × Json) :=
  mjSettingsStep data (mjDepsStep data (mjTagsStep data (mjEarlyStep data
    (mjApiStep data (mjRepoStep data (mjIconStep data (mjBase data)))))))

/-- The generated manifest as a JSON value. -/
def generateModJsonObj (data : ModData) : Json :=
  .obj (generateModJsonMembers data)

/-- Escaping of one string for `JSON.stringify`. -/
def escapeJsonString (s : String) : String :=
  s.data.foldl
    (fun acc c =>
      acc ++
        (if c = '\x22' then "\x5c\x22"
         else if c = '\x5c' then "\x5c\x5c"
         else if c = '\n' then "\x5cn"
         else if c = '\r' then "\x5cr"
         else if c = '\t' then "\x5ct"
         else String.singleton c))
    ""

/-- Indentation used by `JSON.stringify(v, null, 4)`. -/
def jsonIndent (lvl : Nat) : String := "".pushn ' ' (4 * lvl)

mutual

/-- `JSON.stringify(v, null, 4)` at a nesting level. -/
def jsonStringifyAt : Json → Nat → String
  | .str s, _ => "\x22" ++ escapeJsonString s ++ "\x22"
  | .num q, _ => numToString q
  | .bool true, _ => "true"
  | .bool false, _ => "false"
  | .arr [], _ => "[]"
  | .arr (e :: es), lvl =>
      "[\n" ++ jsonElems (e :: es) (lvl + 1) ++ "\n" ++ jsonIndent lvl ++ "]"
  | .obj [], _ => "\x7b\x7d"
  | .obj (m :: ms), lvl =>
      "\x7b\n" ++ jsonMembers (m :: ms) (lvl + 1) ++ "\n" ++ jsonIndent lvl ++ "\x7d"

/-- Array elements, one per line. -/
def jsonElems : List Json → Nat → String
  | [], _ => ""
  | [e], lvl => jsonIndent lvl ++ jsonStringifyAt e lvl
  | e :: e' :: es, lvl =>
      jsonIndent lvl ++ jsonStringifyAt e lvl ++ ",\n" ++ jsonElems (e' :: es) lvl

/-- Object members, one per line. -/
def jsonMembers : List (String × Json) → Nat → String
  | [], _ => ""
  | [(k, v)], lvl =>
      jsonIndent lvl ++ "\x22" ++ escapeJsonString k ++ "\x22: " ++ jsonStringifyAt v lvl
  | (k, v) :: m :: ms, lvl =>
      jsonIndent lvl ++ "\x22" ++ escapeJsonString k ++ "\x22: " ++ jsonStringifyAt v lvl
        ++ ",\n" ++ jsonMembers (m :: ms) lvl

end

/-- `generateModJson` (modGenerator.ts lines 3-82): the manifest object
serialized with `JSON.stringify(modJson, null, 4)`. -/
def generateModJson (data : ModData) : String :=
  jsonStringifyAt (generateModJsonObj data) 0

/-- `generateCMakeLists` (modGenerator.ts lines 84-100). -/
def generateCMakeLists (data : ModData) : String :=
  "cmake_minimum_required(VERSION 3.13)\n\n# Get Geode and its settings\nfind_package(Geode REQUIRED)\n\n# Add your project, its sources and link it to Geode\nadd_geode_mod("
    ++ jsOr data.id "com.developer.modname"
    ++ "\n\tVERSION " ++ jsOr data.version "v1.0.0"
    ++ "\n\tID \x22" ++ jsOr data.id "com.developer.modname"
    ++ "\x22\n\tSOURCES\n\t\tresources/main.cpp\n\tRESOURCES\n\t\tassets\n)\n"

/-- `generateMenuLayerCpp` (modGenerator.ts lines 102-134). -/
def generateMenuLayerCpp (data : ModData) : String :=
  let modName := jsOr data.name "My Awesome Mod"
  "#include <Geode/Geode.hpp>\n#include <Geode/modify/MenuLayer.hpp>\n\nusing namespace geode::prelude;\n\n// Adds a label to the main menu\nclass $modify(MyMenuLayer, MenuLayer) \x7b\n\tbool init() \x7b\n\t\tif (!MenuLayer::init()) \x7b\n\t\t\treturn false;\n\t\t\x7d\n\n\t\ttry \x7b\n\t\t\t// Log that the mod is initializing\n\t\t\tlog::info(\x22Initializing "
    ++ modName
    ++ "\x22);\n\n\t\t\tauto myLabel = CCLabelBMFont::create(\x22Hello from "
    ++ modName
    ++ "!\x22, \x22bigFont.fnt\x22);\n\n\t\t\tauto winSize = CCDirector::sharedDirector()->getWinSize();\n\t\t\tmyLabel->setPosition(winSize.width / 2, winSize.height / 2 + 100);\n\t\t\tmyLabel->setScale(0.7f);\n\t\t\tthis->addChild(myLabel);\n\t\t\x7d catch (const std::exception& e) \x7b\n\t\t\tgeode::log::error(\x22An error occurred during "
    ++ modName
    ++ " initialization: \x7b\x7d\x22, e.what());\n\t\t\x7d\n\n\t\treturn true;\n\t\x7d\n\x7d;\n"

/-- `generatePlayLayerCpp` (modGenerator.ts lines 136-158); the template
uses none of the configuration. -/
def generatePlayLayerCpp (_data : ModData) : String :=
  "#include <Geode/Geode.hpp>\n#include <Geode/modify/PlayLayer.hpp>\n\nusing namespace geode::prelude;\n\n// Shows a notification when the player dies\nclass $modify(PlayLayer) \x7b\n    void onQuit() \x7b\n        // Call the original function so the game doesn\x27t crash\n        PlayLayer::onQuit();\n\n        try \x7b\n            // Log to the console and show a notification\n            log::info(\x22Player quit level, showing notification.\x22);\n            Notification::create(\x22You died!\x22, CCSprite::create(\x22GJ_deleteBtn_001.png\x22))->show();\n        \x7d catch (const std::exception& e) \x7b\n            geode::log::error(\x22An error occurred in PlayLayer::onQuit hook: \x7b\x7d\x22, e.what());\n        \x7d\n    \x7d\n\x7d;\n"

/-- One settings-popup UI fragment of `generateSettingsLayerCpp`
(modGenerator.ts lines 210-263), chosen by the setting's type tag. -/
def settingFragment (modId : String) (index : Nat) (setting : ModSetting) : String :=
  let idx := toString index
  let yPos := "contentSize.height - 40.f - (40.f * " ++ idx ++ ")"
  match setting.type with
  | .bool =>
      "\n                    auto toggle_" ++ idx
        ++ " = geode::Checkbox::create(\x22" ++ setting.name
        ++ "\x22, nullptr);\n                    popup->addToggle(toggle_" ++ idx
        ++ ", \x22" ++ modId ++ "\x22, \x22" ++ setting.key
        ++ "\x22);\n                    toggle_" ++ idx
        ++ "->setPosition(contentSize.width / 2, " ++ yPos
        ++ ");\n                    popup->getBJSPopup()->m_mainLayer->addChild(toggle_" ++ idx
        ++ ");\n                    "
  | .int =>
      "\n                    auto input_label_" ++ idx
        ++ " = CCLabelBMFont::create(\x22" ++ setting.name
        ++ "\x22, \x22bigFont.fnt\x22);\n                    input_label_" ++ idx
        ++ "->setScale(0.5f);\n                    input_label_" ++ idx
        ++ "->setPosition(contentSize.width / 2 - 80.f, " ++ yPos
        ++ ");\n                    popup->getBJSPopup()->m_mainLayer->addChild(input_label_" ++ idx
        ++ ");\n\n                    auto input_" ++ idx
        ++ " = geode::InputNode::create(100.f, \x22Number\x22);\n                    input_" ++ idx
        ++ "->getInput()->setAllowedChars(\x220123456789-\x22);\n                    popup->addInput(input_" ++ idx
        ++ ", \x22" ++ modId ++ "\x22, \x22" ++ setting.key
        ++ "\x22);\n                    input_" ++ idx
        ++ "->setPosition(contentSize.width / 2 + 30.f, " ++ yPos
        ++ ");\n                    popup->getBJSPopup()->m_mainLayer->addChild(input_" ++ idx
        ++ ");\n                    "
  | .float =>
      "\n                    auto input_label_" ++ idx
        ++ " = CCLabelBMFont::create(\x22" ++ setting.name
        ++ "\x22, \x22bigFont.fnt\x22);\n                    input_label_" ++ idx
        ++ "->setScale(0.5f);\n                    input_label_" ++ idx
        ++ "->setPosition(contentSize.width / 2 - 80.f, " ++ yPos
        ++ ");\n                    popup->getBJSPopup()->m_mainLayer->addChild(input_label_" ++ idx
        ++ ");\n\n                    auto input_" ++ idx
        ++ " = geode::InputNode::create(100.f, \x22Number\x22);\n                    input_" ++ idx
        ++ "->getInput()->setAllowedChars(\x220123456789.-\x22);\n                    popup->addInput(input_" ++ idx
        ++ ", \x22" ++ modId ++ "\x22, \x22" ++ setting.key
        ++ "\x22);\n                    input_" ++ idx
        ++ "->setPosition(contentSize.width / 2 + 30.f, " ++ yPos
        ++ ");\n                    popup->getBJSPopup()->m_mainLayer->addChild(input_" ++ idx
        ++ ");\n                    "
  | .string =>
      "\n                    auto input_label_" ++ idx
        ++ " = CCLabelBMFont::create(\x22" ++ setting.name
        ++ "\x22, \x22bigFont.fnt\x22);\n                    input_label_" ++ idx
        ++ "->setScale(0.5f);\n                    input_label_" ++ idx
        ++ "->setPosition(contentSize.width / 2 - 80.f, " ++ yPos
        ++ ");\n                    popup->getBJSPopup()->m_mainLayer->addChild(input_label_" ++ idx
        ++ ");\n\n                    auto input_" ++ idx
        ++ " = geode::InputNode::create(150.f, \x22Text\x22);\n                    popup->addInput(input_" ++ idx
        ++ ", \x22" ++ modId ++ "\x22, \x22" ++ setting.key
        ++ "\x22);\n                    input_" ++ idx
        ++ "->setPosition(contentSize.width / 2 + 55.f, " ++ yPos
        ++ ");\n                    popup->getBJSPopup()->m_mainLayer->addChild(input_" ++ idx
        ++ ");\n                    "

/-- `generateSettingsLayerCpp` (modGenerator.ts lines 161-313). -/
def generateSettingsLayerCpp (data : ModData) : String :=
  let modId := jsOr data.id "com.developer.modname"
  let modName := jsOr data.name "My Mod"
  let firstBoolSetting := data.settings.find? (fun s => s.type = ModSettingType.bool)
  let menuLayerModification :=
    "\n// This adds the \x22Hello World\x22 label to the main menu, but only if a boolean setting is enabled.\nclass $modify(MyMenuLayerWithSettings, MenuLayer) \x7b\n\tbool init() \x7b\n\t\tif (!MenuLayer::init()) \x7b\n\t\t\treturn false;\n\t\t\x7d\n\t\t\n\t\ttry \x7b\n"
  let menuLayerModification :=
    match firstBoolSetting with
    | some fb =>
        menuLayerModification
          ++ "\t\t\t// Check if the setting is enabled\n\t\t\tif (Mod::get()->getSettingValue<bool>(\x22"
          ++ fb.key
          ++ "\x22)) \x7b\n\t\t\t\tlog::info(\x22Setting \x27" ++ fb.key
          ++ "\x27 is enabled, adding label.\x22);\n\t\t\t\tauto myLabel = CCLabelBMFont::create(\x22Hello from "
          ++ modName
          ++ "!\x22, \x22bigFont.fnt\x22);\n\t\t\t\tauto winSize = CCDirector::sharedDirector()->getWinSize();\n\t\t\t\tmyLabel->setPosition(winSize.width / 2, winSize.height / 2 + 100);\n\t\t\t\tmyLabel->setScale(0.7f);\n\t\t\t\tthis->addChild(myLabel);\n\t\t\t\x7d\n"
    | none =>
        menuLayerModification
          ++ "\t\t\t// You can add logic here that depends on your settings.\n\t\t\t// For example, create a boolean setting in the form to toggle this label.\n\t\t\tauto myLabel = CCLabelBMFont::create(\x22Hello from "
          ++ modName
          ++ "!\x22, \x22bigFont.fnt\x22);\n\t\t\tauto winSize = CCDirector::sharedDirector()->getWinSize();\n\t\t\tmyLabel->setPosition(winSize.width / 2, winSize.height / 2 + 100);\n\t\t\tmyLabel->setScale(0.7f);\n\t\t\tthis->addChild(myLabel);\n"
  let menuLayerModification :=
    menuLayerModification
      ++ "\t\t\x7d catch (const std::exception& e) \x7b\n\t\t\tgeode::log::error(\x22An error occurred in MyMenuLayerWithSettings::init: \x7b\x7d\x22, e.what());\n\t\t\x7d\n\n\t\treturn true;\n\t\x7d\n\x7d;"
  let settingsUiGeneration :=
    if data.settings.length > 0 then
      data.settings.enum.foldl (fun acc p => acc ++ settingFragment modId p.1 p.2) ""
    else
      "\n                    auto label = CCLabelBMFont::create(\x22This mod has no settings.\x22, \x22bigFont.fnt\x22);\n                    label->setPosition(contentSize.width / 2, contentSize.height / 2);\n                    label->setScale(0.6f);\n                    popup->getBJSPopup()->m_mainLayer->addChild(label);\n        "
  "#include <Geode/Geode.hpp>\n#include <Geode/modify/MenuLayer.hpp>\n#include <Geode/ui/GeodeUI.hpp>\n#include <Geode/ui/InputNode.hpp>\n#include <Geode/ui/Checkbox.hpp>\n\nusing namespace geode::prelude;\n"
    ++ menuLayerModification
    ++ "\n\n// This function is called when the mod is loaded.\n// It is used to create the settings UI.\n$execute \x7b\n    // We use onModsLoaded instead of just running the code to make sure\n    // the mod list is ready and the settings button can be created.\n    geode::ui::onModsLoaded([] \x7b\n        geode::ui::createSettingsPopup(\n            \x22"
    ++ modId
    ++ "\x22,\n            [](auto popup) \x7b\n                // This is the function that creates the UI.\n                // It is called every time the user opens your settings.\n                try \x7b\n                    log::info(\x22Creating settings UI for "
    ++ modId
    ++ "\x22);\n                    // First, we get the content size of the popup.\n                    // This is used to position our elements.\n                    auto contentSize = popup->getBJSPopup()->m_mainLayer->getContentSize();\n                    \n                    // The following UI is generated automatically based on your settings.\n                    "
    ++ settingsUiGeneration
    ++ "\n\n                    return true;\n                \x7d catch (const std::exception& e) \x7b\n                    geode::log::error(\x22Failed to create settings UI for "
    ++ modId
    ++ ": \x7b\x7d\x22, e.what());\n                    return false; // Indicate failure\n                \x7d\n            \x7d\n        );\n    \x7d);\n\x7d\n"

/-- `generateMainCpp` (modGenerator.ts lines 315-325): pure dispatch on the
template-choice field, with the menu-layer variant as the default. -/
def generateMainCpp (data : ModData) : String :=
  match data.cppTemplate with
  | .playlayer => generatePlayLayerCpp data
  | .settings => generateSettingsLayerCpp data
  | .menulayer => generateMenuLayerCpp data

/-- `generateCIWorkflow` (modGenerator.ts lines 327-362): a constant. -/
def generateCIWorkflow : String :=
  "name: Build Mod\n\non: [push, pull_request]\n\njobs:\n  build:\n    strategy:\n      matrix:\n        os: [windows-latest, macos-latest]\n\n    runs-on: $\x7b\x7b matrix.os \x7d\x7d\n\n    steps:\n      - uses: actions/checkout@v3\n        with:\n          submodules: true\n\n      - name: Setup Geode\n        uses: geode-sdk/setup-geode-sdk@v1\n        with:\n          # This is the token for your PERSONAL ACCESS TOKEN\n          # You can get one here: https://github.com/settings/tokens\n          # You only need the \x27repo\x27 scope\n          token: $\x7b\x7b secrets.GEODE_SDK_TOKEN \x7d\x7d\n\n      - name: Build\n        run: geode build\n\n      - name: Upload Artifact\n        uses: actions/upload-artifact@v3\n        with:\n          name: $\x7b\x7b matrix.os \x7d\x7d Build\n          path: build/*.geode\n"

/-- `generateReadme` (modGenerator.ts lines 364-383). -/
def generateReadme (data : ModData) : String :=
  "# " ++ jsOr data.name "My Awesome Mod"
    ++ "\n\nA new mod for Geometry Dash, created by " ++ jsOr data.developer "Your Name"
    ++ ".\n\n" ++ jsOr data.description "A brief summary of what your mod does."
    ++ "\n\n## Project Structure\n\n*   `mod.json`: The manifest file for your mod. Contains metadata like the name, developer, version, and dependencies.\n*   `CMakeLists.txt`: The build script for your mod.\n*   `resources/`: Contains your C++ source code.\n    *   `main.cpp`: The main entry point for your mod.\n*   `assets/`: Contains assets for your mod (spritesheets, images, sounds, etc.).\n*   `LICENSE`: The license for your mod.\n*   `CONTRIBUTING.md`: Guidelines for contributing to your mod.\n\nThis mod was generated with the [Geode Mod Creator](https://geode-sdk.org/creator).\n"

/-- `generateGitIgnore` (modGenerator.ts lines 385-408): a constant. -/
def generateGitIgnore : String :=
  "build/\nbin/\n*.geode\n*.dll\n*.dylib\n*.so\n*.zip\n*.rar\n*.7z\n\n# Visual Studio\n.vs/\n*.VC.db\n*.VC.opendb\n*.*.user\n\n# CLion\n.idea/\n\n# VSCode\n.vscode/\n"

/-- `generateLicense` (modGenerator.ts lines 410-435). The year comes from
`new Date().getFullYear()` in the source; it is the explicit `year`
parameter here, the model's only wall-clock input. -/
def generateLicense (data : ModData) (year : Nat) : String :=
  "MIT License\n\nCopyright (c) " ++ toString year ++ " " ++ jsOr data.developer "Your Name"
    ++ "\n\nPermission is hereby granted, free of charge, to any person obtaining a copy\nof this software and associated documentation files (the \x22Software\x22), to deal\nin the Software without restriction, including without limitation the rights\nto use, copy, modify, merge, publish, distribute, sublicense, and/or sell\ncopies of the Software, and to permit persons to whom the Software is\nfurnished to do so, to the following conditions:\n\nThe above copyright notice and this permission notice shall be included in all\ncopies or substantial portions of the Software.\n\nTHE SOFTWARE IS PROVIDED \x22AS IS\x22, WITHOUT WARRANTY OF ANY KIND, EXPRESS OR\nIMPLIED, INCLUDING BUT NOT LIMITED TO THE WARRANTIES OF MERCHANTABILITY,\nFITNESS FOR A PARTICULAR PURPOSE AND NONINFRINGEMENT. IN NO EVENT SHALL THE\nAUTHORS OR COPYRIGHT HOLDERS BE LIABLE FOR ANY CLAIM, DAMAGES OR OTHER\nLIABILITY, WHETHER IN AN ACTION OF CONTRACT, TORT OR OTHERWISE, ARISING FROM,\nOUT OF OR IN CONNECTION WITH THE SOFTWARE OR THE USE OR OTHER DEALINGS IN THE\nSOFTWARE.\n"

/-- JS `s.replace(/\.git$/, '')`. -/
def stripDotGit (s : String) : String :=
  if jsEndsWith s ".git" then s.dropRight 4 else s

/-- `generateContributingMd` (modGenerator.ts lines 437-473). -/
def generateContributingMd (data : ModData) : String :=
  let modName := jsOr data.name "this project"
  let repoUrl := if data.repository ≠ "" then stripDotGit data.repository else "https://github.com/your/repo"
  let issuesUrl := if data.repository ≠ "" then repoUrl ++ "/issues" else "#"
  let newIssueUrl := if data.repository ≠ "" then repoUrl ++ "/issues/new" else "#"
  "# Contributing to " ++ modName
    ++ "\n\nFirst off, thank you for considering contributing to " ++ modName
    ++ "! It\x27s people like you that make the Geode modding community such a great place.\n\n## How Can I Contribute?\n\n### Reporting Bugs\n\n- Ensure the bug was not already reported by searching on GitHub under [Issues]("
    ++ issuesUrl
    ++ ").\n- If you\x27re unable to find an open issue addressing the problem, [open a new one]("
    ++ newIssueUrl
    ++ "). Be sure to include a **title and clear description**, as much relevant information as possible, and a **code sample or an executable test case** demonstrating the expected behavior that is not occurring.\n\n### Suggesting Enhancements\n\n- Open a new issue to discuss your new feature idea.\n- Be sure to provide a clear and detailed explanation of the feature, its potential benefits, and any implementation details you have in mind.\n\n### Pull Requests\n\n1. Fork the repo and create your branch from `main`.\n2. If you\x27ve added code that should be tested, add tests.\n3. Ensure the test suite passes.\n4. Make sure your code lints.\n5. Issue that pull request!\n\n## Styleguides\n\nPlease try to follow the coding style of the existing codebase. This makes it easier for everyone to read and understand the code.\n\nWe look forward to your contributions!\n"

/-- JS string-truthiness (`""` falsy), for the required-field gate. -/
def jsTruthyStr (s : String) : Bool := !(s == "")

/-- The base-64 payload of a data URL: `dataUrl.split(',')[1]`
(App.tsx line 220). -/
def dataUrlPayload (s : String) : String :=
  ((s.splitOn ",").get? 1).getD ""

/-- The condition under which `generateFiles` re-layers a previous entry
(App.tsx line 231): under `assets/`, but neither the fixed logo path nor
the empty placeholder. -/
def preserveCond (k : String) : Bool :=
  jsStartsWith k "assets/" && !(k == "assets/logo.png") && !(k == "assets/.gitkeep")

/-- The object literal at the start of `generateFiles`
(App.tsx lines 206-215). -/
def baseFiles (modData : ModData) (year : Nat) : Tree :=
  [("mod.json", generateModJson modData),
   ("CMakeLists.txt", generateCMakeLists modData),
   ("src/main.cpp", generateMainCpp modData),
   ("README.md", generateReadme modData),
   (".gitignore", generateGitIgnore),
   ("LICENSE", generateLicense modData year),
   ("CONTRIBUTING.md", generateContributingMd modData),
   ("assets/.gitkeep", "")]

/-- The CI block of `generateFiles` (App.tsx lines 216-218). -/
def withCi (modData : ModData) (files : Tree) : Tree :=
  if modData.includeCi then oset files ".github/workflows/main.yml" generateCIWorkflow
  else files

/-- The logo block of `generateFiles` (App.tsx lines 219-226). -/
def withLogo (modData : ModData) (files : Tree) : Tree :=
  if jsTruthyS modData.logo then
    oset files "assets/logo.png" (dataUrlPayload (modData.logo.getD ""))
  else
    if jsTruthyS (rget files "assets/logo.png") then rdel files "assets/logo.png"
    else files

/-- The asset-preservation loop of `generateFiles` (App.tsx lines 229-235),
over the entries of `src` (`for (const path in generatedFiles)` reads
`generatedFiles[path]`, i.e. `rget src`). -/
def preserveFold (src : Tree) (l : List (String × String)) (files : Tree) : Tree :=
  l.foldl
    (fun fs e => if preserveCond e.1 then oset fs e.1 ((rget src e.1).getD "") else fs)
    files

/-- `// Keep existing generated assets` (App.tsx lines 228-235). -/
def preserveAssets (prev files : Tree) : Tree :=
  preserveFold prev prev files

/-- `generateFiles` (App.tsx lines 205-238), with the previous tree state
and the wall-clock year as explicit inputs. -/
def generateFiles (modData : ModData) (generatedFiles : Option Tree) (year : Nat) : Tree :=
  let files := baseFiles modData year
  let files := withCi modData files
  let files := withLogo modData files
  match generatedFiles with
  | some prev => preserveAssets prev files
  | none => files

/-- The required-field gating effect (App.tsx lines 240-246): the tree is
regenerated when `modData.id && modData.name && modData.developer` is
truthy, and cleared to `null` otherwise. -/
def regenerate (modData : ModData) (generatedFiles : Option Tree) (year : Nat) : Option Tree :=
  if jsTruthyStr modData.id && jsTruthyStr modData.name && jsTruthyStr modData.developer then
    some (generateFiles modData generatedFiles year)
  else
    none

/-- `handleFileContentChange` (App.tsx lines 252-254): patch one entry,
or keep `null` when there is no tree. -/
def handleFileContentChange (prev : Option Tree) (path newContent : String) : Option Tree :=
  prev.map (fun t => oset t path newContent)

/-- One file object of an AI `\x7bfiles: [...]\x7d` batch response; either
field may be absent in the parsed JSON. -/
structure BatchFile where
  filePath : Option String
  fileContent : Option String
deriving DecidableEq

/-- The multi-file branch of `handleSendMessage` (App.tsx lines 458-469):
each entry is applied only when `file.filePath && file.fileContent` is
truthy; the batch starts from the previous tree, or `\x7b\x7d` when absent. -/
def applyFileBatch (prev : Option Tree) (files : List BatchFile) : Tree :=
  files.foldl
    (fun newFiles file =>
      if jsTruthyS file.filePath && jsTruthyS file.fileContent then
        oset newFiles (file.filePath.getD "") (file.fileContent.getD "")
      else newFiles)
    (prev.getD [])

/-- A character kept by the sanitizing regex `[^a-z0-9-_\.]/gi`. -/
def keepChar (c : Char) : Bool :=
  ('a' ≤ c && c ≤ 'z') || ('A' ≤ c && c ≤ 'Z') || c.isDigit || c == '-' || c == '_' || c == '.'

/-- Asset file-name sanitization (App.tsx line 435): force a `.png`
extension, replace disallowed characters with `-`, lower-case. -/
def sanitizeFileName (fileName : String) : String :=
  let withExt := if jsEndsWith fileName ".png" then fileName else fileName ++ ".png"
  ⟨withExt.data.map (fun c => if keepChar c then c.toLower else '-')⟩

/-- JS `s.replace(pat, rep)` with a string pattern: first occurrence only. -/
def replaceFirstAux : List Char → List Char → List Char → List Char
  | [], _, _ => []
  | c :: cs, pat, rep =>
      if pat.isPrefixOf (c :: cs) then rep ++ (c :: cs).drop pat.length
      else c :: replaceFirstAux cs pat rep

/-- JS `s.replace(pat, rep)` with a string pattern. -/
def replaceFirst (s pat rep : String) : String :=
  ⟨replaceFirstAux s.data pat.data rep.data⟩

/-- The `generateImageAndPlist` tool-call branch of `handleSendMessage`
(App.tsx lines 433-441): delete the placeholder, then store the image and
its `.plist` under `assets/`. -/
def applyAssetToolCall (prev : Option Tree) (fileName imageB64 plistContent : String) : Tree :=
  let newFiles := prev.getD []
  let sanitizedFileName := sanitizeFileName fileName
  let plistFileName := replaceFirst sanitizedFileName ".png" ".plist"
  let t := rdel newFiles "assets/.gitkeep"
  let t := oset t ("assets/" ++ sanitizedFileName) imageB64
  oset t ("assets/" ++ plistFileName) plistContent

/-- The suffix list of `addFileToZip` (App.tsx line 263). -/
def textFileSuffixes : List String :=
  [".json", ".txt", ".cpp", ".md", ".yml", ".gitignore", "LICENSE", ".gitkeep", ".plist"]

/-- `isTextFile` in `addFileToZip`: a suffix test against the list above. -/
def isTextFile (path : String) : Bool :=
  textFileSuffixes.any (fun ext => jsEndsWith path ext)

/-- How one entry is written into the zip archive. -/
inductive ZipWrite
  | text (content : String)
  | binaryBase64 (content : String)
  | skipped
deriving DecidableEq

/-- `addFileToZip` (App.tsx lines 261-269): skip `undefined` content, write
text entries verbatim and all others as base64-decoded binary. -/
def addFileToZip (path : String) (content : Option String) : ZipWrite :=
  match content with
  | none => .skipped
  | some c => if isTextFile path then .text c else .binaryBase64 c

/-- The claim's own classifier, written from the spec's words, for
comparison with `isTextFile`: extension (from the last dot) in the
seven-extension list, or named exactly `LICENSE` or `.gitkeep`. -/
def claimedExtension (p : String) : String :=
  match lastIndexOfChar p.data '.' with
  | some i => ⟨p.data.drop i⟩
  | none => ""

/-- The spec's text/binary rule as literally stated in the claim. -/
def specTextFile (p : String) : Bool :=
  [".json", ".txt", ".cpp", ".md", ".yml", ".gitignore", ".plist"].contains (claimedExtension p)
    || p == "LICENSE" || p == ".gitkeep"

/-- A field update passed to `handleSettingChange` (ModForm.tsx lines
154-172), with the value typed per field as at its call sites. -/
inductive FieldUpdate
  | key (v : String)
  | name (v : String)
  | descr (v : String)
  | typeTag (v : ModSettingType)
  | defaultVal (v : JsVal)

/-- The canonical zero default installed when a setting's type changes
(ModForm.tsx lines 159-166). -/
def canonicalDefault : ModSettingType → JsVal
  | .bool => .b false
  | .int => .num 0
  | .float => .num 0
  | .string => .str ""

/-- `handleSettingChange` (ModForm.tsx lines 154-172): update one field of
the setting with the given id; when the updated field is the type tag, also
reset the default value to the new type's canonical zero. -/
def handleSettingChange (settings : List ModSetting) (sid : String) (upd : FieldUpdate) :
    List ModSetting :=
  settings.map fun s =>
    if s.id = sid then
      let updatedSetting :=
        match upd with
        | .key v => { s with key := v }
        | .name v => { s with name := v }
        | .descr v => { s with description := v }
        | .typeTag v => { s with type := v }
        | .defaultVal v => { s with default := v }
      match upd with
      | .typeTag t => { updatedSetting with default := canonicalDefault t }
      | _ => updatedSetting
    else s

/-- Split a character list on a separator character (the list-level
counterpart of `String.splitOn` for a one-character separator). -/
def splitOnChar (cs : List Char) (sep : Char) : List (List Char) :=
  match cs with
  | [] => [[]]
  | c :: rest =>
      let r := splitOnChar rest sep
      if c = sep then [] :: r
      else
        match r with
        | [] => [[c]]
        | h :: t => (c :: h) :: t

/-- One segment of the mod-id validation pattern: non-empty, over
`[a-z0-9-]`. -/
def idSegOk (p : List Char) : Bool :=
  !p.isEmpty && p.all (fun c => ('a' ≤ c && c ≤ 'z') || c.isDigit || c == '-')

/-- The mod-id validation regex of ModForm.tsx lines 211-218
(`^[a-z0-9-]+(\.[a-z0-9-]+)+$`): at least two dot-separated non-empty
segments over `[a-z0-9-]`. Display-only validation in the source. -/
def idValid (s : String) : Bool :=
  let parts := splitOnChar s.data '.'
  decide (parts.length ≥ 2) && parts.all idSegOk

/-- The initial `modData` state of the App (App.tsx lines 126-156). -/
def initialModData : ModData :=
  { id := ""
    name := ""
    version := "v1.0.0"
    developer := ""
    description := ""
    logo := none
    dependencies := ""
    repository := ""
    cppTemplate := .menulayer
    includeCi := false
    platforms := { win := true, mac := true, android := true, ios := false }
    gdVersion := "*"
    geodeVersion := "2.0.0-beta.26"
    tags := ""
    providesApi := false
    earlyLoad := false
    settings := [{ id := "setting-initial-1", key := "welcome_message",
                   name := "Welcome Message",
                   description := "The message to display on startup",
                   type := .string, default := .str "Hello, Geode!" }] }

/-- Pointwise equality of two trees except possibly for the value stored at
one distinguished path: same entries, in the same order, with equal keys,
and equal values at every key other than `ex`. -/
def TreeEqExcept (ex : String) : Tree → Tree → Prop :=
  List.Forall₂ (fun a b => a.1 = b.1 ∧ (a.1 ≠ ex → a.2 = b.2))

/-- The content of the last entry of an AI file batch that is valid (truthy
path and content) and targets path `p`, if any: the value that entry leaves
at `p` after the batch is applied. -/
def lastValidContent : List BatchFile → String → Option String
  | [], _ => none
  | f :: fs, p =>
      match lastValidContent fs p with
      | some c => some c
      | none =>
          if (jsTruthyS f.filePath && jsTruthyS f.fileContent) && f.filePath.getD "" == p then
            some (f.fileContent.getD "")
          else none

theorem rget_cons {α : Type} (e : String × α) (m : List (String × α)) (p : String) :
    rget (e :: m) p = if e.1 = p then some e.2 else rget m p := by
  obtain ⟨k, v⟩ := e
  rfl

theorem oset_cons {α : Type} (e : String × α) (m : List (String × α)) (k : String) (v : α) :
    oset (e :: m) k v = if e.1 = k then (k, v) :: m else e :: oset m k v := by
  obtain ⟨k', v'⟩ := e
  rfl

theorem rdel_cons {α : Type} (e : String × α) (m : List (String × α)) (k : String) :
    rdel (e :: m) k = if e.1 = k then rdel m k else e :: rdel m k := by
  obtain ⟨k', v'⟩ := e
  by_cases h : k' = k <;> simp [rdel, List.filter_cons, h]

theorem rget_oset_self {α : Type} (m : List (String × α)) (k : String) (v : α) :
    rget (oset m k v) k = some v := by
  induction m with
  | nil => simp [oset, rget]
  | cons e rest ih =>
    rw [oset_cons]
    by_cases h : e.1 = k
    · simp [h, rget_cons]
    · rw [if_neg h, rget_cons, if_neg h, ih]

theorem rget_oset_ne {α : Type} (m : List (String × α)) (k : String) (v : α) (p : String)
    (h : p ≠ k) : rget (oset m k v) p = rget m p := by
  induction m with
  | nil => simp [oset, rget_cons, rget, Ne.symm h]
  | cons e rest ih =>
    rw [oset_cons]
    by_cases he : e.1 = k
    · rw [if_pos he, rget_cons, rget_cons, if_neg (Ne.symm h), he, if_neg (Ne.symm h)]
    · rw [if_neg he, rget_cons, rget_cons, ih]

theorem rget_rdel_self {α : Type} (m : List (String × α)) (k : String) :
    rget (rdel m k) k = none := by
  induction m with
  | nil => rfl
  | cons e rest ih =>
    rw [rdel_cons]
    by_cases h : e.1 = k
    · rwa [if_pos h]
    · rw [if_neg h, rget_cons, if_neg h, ih]

theorem rget_rdel_ne {α : Type} (m : List (String × α)) (k p : String) (h : p ≠ k) :
    rget (rdel m k) p = rget m p := by
  induction m with
  | nil => rfl
  | cons e rest ih =>
    rw [rdel_cons, rget_cons]
    by_cases he : e.1 = k
    · rw [if_pos he, ih, if_neg (he ▸ Ne.symm h)]
    · rw [if_neg he, rget_cons, ih]

theorem rget_exists_of_some {α : Type} (m : List (String × α)) (p : String) (c : α)
    (h : rget m p = some c) : ∃ e, e ∈ m ∧ e.1 = p := by
  induction m with
  | nil => simp [rget] at h
  | cons e rest ih =>
    rw [rget_cons] at h
    by_cases he : e.1 = p
    · exact ⟨e, List.mem_cons_self e rest, he⟩
    · rw [if_neg he] at h
      obtain ⟨e', he', hk⟩ := ih h
      exact ⟨e', List.mem_cons_of_mem e he', hk⟩

theorem teq_refl (ex : String) (m : Tree) : TreeEqExcept ex m m := by
  induction m with
  | nil => exact List.Forall₂.nil
  | cons e rest ih => exact List.Forall₂.cons ⟨rfl, fun _ => rfl⟩ ih

theorem teq_rget {ex : String} {m₁ m₂ : Tree} (h : TreeEqExcept ex m₁ m₂) (p : String)
    (hp : p ≠ ex) : rget m₁ p = rget m₂ p := by
  induction h with
  | nil => rfl
  | @cons a b l₁ l₂ hab _ ih =>
    rw [rget_cons, rget_cons, hab.1]
    by_cases hk : b.1 = p
    · rw [if_pos hk, if_pos hk, hab.2 (by rw [hab.1, hk]; exact hp)]
    · rw [if_neg hk, if_neg hk, ih]

theorem teq_keys {ex : String} {m₁ m₂ : Tree} (h : TreeEqExcept ex m₁ m₂) :
    m₁.map Prod.fst = m₂.map Prod.fst := by
  induction h with
  | nil => rfl
  | cons hab _ ih => simp [hab.1, ih]

theorem teq_oset {ex : String} {m₁ m₂ : Tree} (h : TreeEqExcept ex m₁ m₂) (k : String)
    (v : String) : TreeEqExcept ex (oset m₁ k v) (oset m₂ k v) := by
  induction h with
  | nil => exact List.Forall₂.cons ⟨rfl, fun _ => rfl⟩ List.Forall₂.nil
  | @cons a b l₁ l₂ hab hrest ih =>
    rw [oset_cons, oset_cons, hab.1]
    by_cases hk : b.1 = k
    · rw [if_pos hk, if_pos hk]
      exact List.Forall₂.cons ⟨rfl, fun _ => rfl⟩ hrest
    · rw [if_neg hk, if_neg hk]
      exact List.Forall₂.cons hab ih

theorem teq_rdel {ex : String} {m₁ m₂ : Tree} (h : TreeEqExcept ex m₁ m₂) (k : String) :
    TreeEqExcept ex (rdel m₁ k) (rdel m₂ k) := by
  induction h with
  | nil => exact List.Forall₂.nil
  | @cons a b l₁ l₂ hab _ ih =>
    rw [rdel_cons, rdel_cons, hab.1]
    by_cases hk : b.1 = k
    · rwa [if_pos hk, if_pos hk]
    · rw [if_neg hk, if_neg hk]
      exact List.Forall₂.cons hab ih

theorem teq_baseFiles (md : ModData) (y₁ y₂ : Nat) :
    TreeEqExcept "LICENSE" (baseFiles md y₁) (baseFiles md y₂) := by
  simp [baseFiles, TreeEqExcept]

theorem teq_withCi {m₁ m₂ : Tree} (md : ModData) (h : TreeEqExcept "LICENSE" m₁ m₂) :
    TreeEqExcept "LICENSE" (withCi md m₁) (withCi md m₂) := by
  unfold withCi
  by_cases hc : md.includeCi
  · rw [if_pos hc, if_pos hc]
    exact teq_oset h _ _
  · rwa [if_neg hc, if_neg hc]

theorem teq_withLogo {m₁ m₂ : Tree} (md : ModData) (h : TreeEqExcept "LICENSE" m₁ m₂) :
    TreeEqExcept "LICENSE" (withLogo md m₁) (withLogo md m₂) := by
  unfold withLogo
  by_cases hc : jsTruthyS md.logo
  · rw [if_pos hc, if_pos hc]
    exact teq_oset h _ _
  · rw [if_neg hc, if_neg hc, teq_rget h "assets/logo.png" (by decide)]
    by_cases hl : jsTruthyS (rget m₂ "assets/logo.png")
    · rw [if_pos hl, if_pos hl]
      exact teq_rdel h _
    · rwa [if_neg hl, if_neg hl]

theorem preserveFold_nil (src : Tree) (t : Tree) : preserveFold src [] t = t := rfl

theorem preserveFold_cons (src : Tree) (e : String × String) (l : List (String × String))
    (t : Tree) :
    preserveFold src (e :: l) t =
      preserveFold src l
        (if preserveCond e.1 then oset t e.1 ((rget src e.1).getD "") else t) := rfl

theorem teq_preserveFold {m₁ m₂ : Tree} (src : Tree) (l : List (String × String))
    (h : TreeEqExcept "LICENSE" m₁ m₂) :
    TreeEqExcept "LICENSE" (preserveFold src l m₁) (preserveFold src l m₂) := by
  induction l generalizing m₁ m₂ with
  | nil => exact h
  | cons e rest ih =>
    rw [preserveFold_cons, preserveFold_cons]
    by_cases hc : preserveCond e.1
    · rw [if_pos hc, if_pos hc]
      exact ih (teq_oset h _ _)
    · rw [if_neg hc, if_neg hc]
      exact ih h

theorem rget_withCi_ne (md : ModData) (t : Tree) (p : String)
    (h : p ≠ ".github/workflows/main.yml") : rget (withCi md t) p = rget t p := by
  unfold withCi
  by_cases hc : md.includeCi
  · rw [if_pos hc, rget_oset_ne _ _ _ _ h]
  · rw [if_neg hc]

theorem rget_withLogo_ne (md : ModData) (t : Tree) (p : String)
    (h : p ≠ "assets/logo.png") : rget (withLogo md t) p = rget t p := by
  unfold withLogo
  by_cases hc : jsTruthyS md.logo
  · rw [if_pos hc, rget_oset_ne _ _ _ _ h]
  · rw [if_neg hc]
    by_cases hl : jsTruthyS (rget t "assets/logo.png")
    · rw [if_pos hl, rget_rdel_ne _ _ _ h]
    · rw [if_neg hl]

theorem rget_preserveFold_skip (src : Tree) (l : List (String × String)) (t : Tree)
    (p : String) (hp : preserveCond p = false) :
    rget (preserveFold src l t) p = rget t p := by
  induction l generalizing t with
  | nil => rfl
  | cons e rest ih =>
    rw [preserveFold_cons]
    by_cases hc : preserveCond e.1
    · rw [if_pos hc, ih, rget_oset_ne]
      intro hk
      rw [hk] at hp
      rw [hp] at hc
      exact Bool.false_ne_true hc
    · rw [if_neg hc, ih]

theorem rget_preserveFold_notkeys (src : Tree) (l : List (String × String)) (t : Tree)
    (p : String) (h : ∀ e, e ∈ l → e.1 ≠ p) :
    rget (preserveFold src l t) p = rget t p := by
  induction l generalizing t with
  | nil => rfl
  | cons e rest ih =>
    rw [preserveFold_cons]
    have he : e.1 ≠ p := h e (List.mem_cons_self e rest)
    by_cases hc : preserveCond e.1
    · rw [if_pos hc, ih _ (fun x hx => h x (List.mem_cons_of_mem e hx)),
        rget_oset_ne _ _ _ _ (Ne.symm he)]
    · rw [if_neg hc, ih _ (fun x hx => h x (List.mem_cons_of_mem e hx))]

theorem rget_preserveFold_mem (src : Tree) (l : List (String × String)) (t : Tree)
    (p : String) (hp : preserveCond p = true) (hmem : ∃ e, e ∈ l ∧ e.1 = p) :
    rget (preserveFold src l t) p = some ((rget src p).getD "") := by
  induction l generalizing t with
  | nil =>
    obtain ⟨e, he, _⟩ := hmem
    exact absurd he (List.not_mem_nil e)
  | cons e rest ih =>
    rw [preserveFold_cons]
    by_cases hr : ∃ e', e' ∈ rest ∧ e'.1 = p
    · by_cases hc : preserveCond e.1
      · rw [if_pos hc]
        exact ih _ hr
      · rw [if_neg hc]
        exact ih _ hr
    · obtain ⟨e', he', hk⟩ := hmem
      rcases List.mem_cons.mp he' with he₀ | he₀
      · have hkey : e.1 = p := by rw [he₀] at hk; exact hk
        rw [hkey, if_pos hp,
          rget_preserveFold_notkeys src rest _ p (fun x hx hxe => hr ⟨x, hx, hxe⟩),
          rget_oset_self]
      · exact absurd ⟨e', he₀, hk⟩ hr

theorem rget_baseFiles_gitkeep (md : ModData) (y : Nat) :
    rget (baseFiles md y) "assets/.gitkeep" = some "" := by
  simp [baseFiles, rget_cons, rget]

theorem rget_baseFiles_license (md : ModData) (y : Nat) :
    rget (baseFiles md y) "LICENSE" = some (generateLicense md y) := by
  simp [baseFiles, rget_cons, rget]

theorem rget_batchFold (files : List BatchFile) (t : Tree) (p : String) :
    rget (files.foldl
      (fun newFiles file =>
        if jsTruthyS file.filePath && jsTruthyS file.fileContent then
          oset newFiles (file.filePath.getD "") (file.fileContent.getD "")
        else newFiles) t) p =
    (match lastValidContent files p with
     | some c => some c
     | none => rget t p) := by
  induction files generalizing t with
  | nil => rfl
  | cons f fs ih =>
    rw [List.foldl_cons, ih]
    cases hlv : lastValidContent fs p with
    | some c => simp [lastValidContent, hlv]
    | none =>
      simp only [lastValidContent, hlv]
      by_cases hv : (jsTruthyS f.filePath && jsTruthyS f.fileContent) = true
      · by_cases hpp : f.filePath.getD "" = p
        · simp [hv, hpp, rget_oset_self]
        · simp [hv, hpp, rget_oset_ne _ _ _ _ (Ne.symm hpp)]
      · simp [Bool.eq_false_iff.mpr hv]

theorem rget_applyFileBatch (prev : Option Tree) (files : List BatchFile) (p : String) :
    rget (applyFileBatch prev files) p =
    (match lastValidContent files p with
     | some c => some c
     | none => rget (prev.getD []) p) :=
  rget_batchFold files (prev.getD []) p

theorem lastValidContent_isSome_of_mem (files : List BatchFile) (f : BatchFile)
    (hf : f ∈ files) (hv : (jsTruthyS f.filePath && jsTruthyS f.fileContent) = true) :
    (lastValidContent files (f.filePath.getD "")).isSome = true := by
  induction files with
  | nil => exact absurd hf (List.not_mem_nil f)
  | cons g gs ih =>
    rcases List.mem_cons.mp hf with hg | hg
    · cases hlv : lastValidContent gs (f.filePath.getD "") with
      | some c => simp [lastValidContent, hlv]
      | none => simp [lastValidContent, hlv, ← hg, hv]
    · cases hlv : lastValidContent gs (f.filePath.getD "") with
      | some c => simp [lastValidContent, hlv]
      | none =>
        have := ih hg
        rw [hlv] at this
        simp at this

theorem lastIndexOfChar_sound (cs : List Char) (c : Char) (i : Nat)
    (h : lastIndexOfChar cs c = some i) : cs[i]? = some c := by
  induction cs generalizing i with
  | nil => simp [lastIndexOfChar] at h
  | cons x xs ih =>
    rw [lastIndexOfChar] at h
    cases hrec : lastIndexOfChar xs c with
    | some j =>
      rw [hrec] at h
      have hij : i = j + 1 := (Option.some.inj h).symm
      rw [hij, List.getElem?_cons_succ]
      exact ih j hrec
    | none =>
      rw [hrec] at h
      by_cases hx : x = c
      · rw [if_pos hx] at h
        have hi0 : i = 0 := (Option.some.inj h).symm
        rw [hi0, List.getElem?_cons_zero, hx]
      · rw [if_neg hx] at h
        exact absurd h (Option.noConfusion)

theorem lastIndexOfChar_eq_none (cs : List Char) (c : Char)
    (h : ∀ j, j < cs.length → cs[j]? ≠ some c) : lastIndexOfChar cs c = none := by
  induction cs with
  | nil => rfl
  | cons x xs ih =>
    rw [lastIndexOfChar, ih (fun j hj => by
      have := h (j + 1) (by simpa using Nat.succ_lt_succ hj)
      rwa [List.getElem?_cons_succ] at this)]
    have hx : x ≠ c := by
      have := h 0 (by simp)
      rwa [List.getElem?_cons_zero, Ne, Option.some_inj] at this
    rw [if_neg hx]

theorem lastIndexOfChar_eq_some (cs : List Char) (c : Char) (i : Nat)
    (hi : cs[i]? = some c)
    (hlast : ∀ j, j < cs.length → i < j → cs[j]? ≠ some c) :
    lastIndexOfChar cs c = some i := by
  induction cs generalizing i with
  | nil => simp at hi
  | cons x xs ih =>
    cases i with
    | zero =>
      rw [List.getElem?_cons_zero, Option.some_inj] at hi
      have hnone : lastIndexOfChar xs c = none := by
        apply lastIndexOfChar_eq_none
        intro j hj
        have := hlast (j + 1) (by simpa using Nat.succ_lt_succ hj) (Nat.succ_pos j)
        rwa [List.getElem?_cons_succ] at this
      rw [lastIndexOfChar, hnone, if_pos hi]
    | succ i' =>
      rw [List.getElem?_cons_succ] at hi
      have hrec : lastIndexOfChar xs c = some i' := by
        apply ih i' hi
        intro j hj hij
        have := hlast (j + 1) (by simpa using Nat.succ_lt_succ hj) (Nat.succ_lt_succ hij)
        rwa [List.getElem?_cons_succ] at this
      rw [lastIndexOfChar, hrec]

theorem lastValidContent_eq_none (files : List BatchFile) (p : String)
    (h : ∀ f, f ∈ files → (jsTruthyS f.filePath && jsTruthyS f.fileContent) = true →
      f.filePath.getD "" ≠ p) :
    lastValidContent files p = none := by
  induction files with
  | nil => rfl
  | cons f fs ih =>
    rw [lastValidContent, ih (fun g hg => h g (List.mem_cons_of_mem f hg))]
    by_cases hv : (jsTruthyS f.filePath && jsTruthyS f.fileContent) = true
    · have hne : (f.filePath.getD "" == p) = false :=
        beq_eq_false_iff_ne.mpr (h f (List.mem_cons_self f fs) hv)
      simp [hv, hne]
    · simp [Bool.eq_false_iff.mpr hv]

theorem rget_condOset_ne {c : Prop} [Decidable c] (m : List (String × Json)) (k : String)
    (v : Json) (p : String) (h : p ≠ k) :
    rget (if c then oset m k v else m) p = rget m p := by
  by_cases hc : c
  · rw [if_pos hc]
    exact rget_oset_ne m k v p h
  · rw [if_neg hc]

theorem rget_generateModJsonMembers_gd (data : ModData) :
    rget (generateModJsonMembers data) "gd" =
      some (Json.obj ((gdMap data).map (fun e => (e.1, Json.str e.2)))) := by
  unfold generateModJsonMembers mjSettingsStep mjDepsStep mjTagsStep mjEarlyStep mjApiStep
    mjRepoStep mjIconStep
  dsimp only
  rw [rget_condOset_ne _ _ _ _ (by decide)]
  split
  · rw [rget_condOset_ne _ _ _ _ (by decide), rget_condOset_ne _ _ _ _ (by decide),
      rget_condOset_ne _ _ _ _ (by decide), rget_condOset_ne _ _ _ _ (by decide),
      rget_condOset_ne _ _ _ _ (by decide), rget_condOset_ne _ _ _ _ (by decide)]
    simp [mjBase, rget_cons, rget]
  · rw [rget_condOset_ne _ _ _ _ (by decide), rget_condOset_ne _ _ _ _ (by decide),
      rget_condOset_ne _ _ _ _ (by decide), rget_condOset_ne _ _ _ _ (by decide),
      rget_condOset_ne _ _ _ _ (by decide)]
    simp [mjBase, rget_cons, rget]

theorem sanitize_ends_png (fileName : String) :
    jsEndsWith (sanitizeFileName fileName) ".png" = true := by
  unfold sanitizeFileName jsEndsWith
  apply List.isSuffixOf_iff_suffix.mpr
  have hmap : List.map (fun c => if keepChar c then c.toLower else '-') ".png".data
      = ".png".data := by decide
  have hsuffix : ".png".data <:+
      (if jsEndsWith fileName ".png" then fileName else fileName ++ ".png").data := by
    by_cases h : jsEndsWith fileName ".png" = true
    · rw [if_pos h]
      exact List.isSuffixOf_iff_suffix.mp h
    · rw [if_neg h]
      exact List.suffix_append fileName.data ".png".data
  have := hsuffix.map (fun c => if keepChar c then c.toLower else '-')
  rwa [hmap] at this

theorem endsWith_png_ne_gitkeep (s : String) (h : jsEndsWith s ".png" = true) :
    s ≠ ".gitkeep" := by
  intro he
  rw [he] at h
  exact absurd h (by decide)

theorem replaceFirstAux_eq_or_mem (cs pat rep : List Char) (hl : 'l' ∈ rep) :
    replaceFirstAux cs pat rep = cs ∨ 'l' ∈ replaceFirstAux cs pat rep := by
  induction cs with
  | nil => exact Or.inl rfl
  | cons c cs' ih =>
    rw [replaceFirstAux]
    by_cases hp : pat.isPrefixOf (c :: cs') = true
    · rw [if_pos hp]
      exact Or.inr (List.mem_append_left _ hl)
    · rw [if_neg hp]
      rcases ih with h | h
      · exact Or.inl (by rw [h])
      · exact Or.inr (List.mem_cons_of_mem c h)

theorem plistName_ne_gitkeep (fileName : String) :
    replaceFirst (sanitizeFileName fileName) ".png" ".plist" ≠ ".gitkeep" := by
  intro he
  rcases replaceFirstAux_eq_or_mem (sanitizeFileName fileName).data ".png".data
      ".plist".data (by decide) with h | h
  · have hsan : replaceFirst (sanitizeFileName fileName) ".png" ".plist"
        = sanitizeFileName fileName := by
      unfold replaceFirst
      rw [h]
    rw [hsan] at he
    exact endsWith_png_ne_gitkeep _ (sanitize_ends_png fileName) he
  · have hdata : (replaceFirst (sanitizeFileName fileName) ".png" ".plist").data
        = ".gitkeep".data := congrArg String.data he
    have hmem : 'l' ∈ (".gitkeep" : String).data := by
      rw [← hdata]
      exact h
    exact absurd hmem (by decide)

theorem assets_prefix_ne (s : String) (h : s ≠ ".gitkeep") :
    ("assets/" ++ s : String) ≠ "assets/.gitkeep" := by
  intro he
  apply h
  have hd : ("assets/" ++ s : String).data = ("assets/" ++ ".gitkeep" : String).data :=
    congrArg String.data he
  have hd' : "assets/".data ++ s.data = "assets/".data ++ (".gitkeep" : String).data := hd
  exact String.ext (List.append_cancel_left hd')

theorem rget_applyAssetToolCall_gitkeep (prev : Option Tree)
    (fileName imageB64 plistContent : String) :
    rget (applyAssetToolCall prev fileName imageB64 plistContent) "assets/.gitkeep" = none := by
  unfold applyAssetToolCall
  rw [rget_oset_ne _ _ _ _ (Ne.symm (assets_prefix_ne _ (plistName_ne_gitkeep fileName))),
    rget_oset_ne _ _ _ _
      (Ne.symm (assets_prefix_ne _ (endsWith_png_ne_gitkeep _ (sanitize_ends_png fileName)))),
    rget_rdel_self]

/-- C2: the dependency parser splits each token on its LAST `@`: when some
`@` occurs at a position greater than zero, the id is the part before the
last `@` and the version the part after it (`*` when empty); when `@` is
absent or occurs only at position 0, the whole token is the id and the
version is `*`; `required` is always `true`; and the three spec examples
hold. -/
theorem dependency_parser_splits_on_last_at :
    (∀ (tok : String) (i : Nat), 0 < i → tok.data[i]? = some '@' →
      (∀ j, j < tok.data.length → i < j → tok.data[j]? ≠ some '@') →
      parseDependency tok =
        { id := ⟨tok.data.take i⟩, required := true,
          version := if tok.data.drop (i + 1) = [] then "*" else ⟨tok.data.drop (i + 1)⟩ })
  ∧ (∀ tok : String, (∀ j, j < tok.data.length → 0 < j → tok.data[j]? ≠ some '@') →
      parseDependency tok = { id := tok, required := true, version := "*" })
  ∧ (∀ tok : String, (parseDependency tok).required = true)
  ∧ parseDependency "a.b.c@^1.2.0" = { id := "a.b.c", required := true, version := "^1.2.0" }
  ∧ parseDependency "a.b.c" = { id := "a.b.c", required := true, version := "*" }
  ∧ parseDependency "@scoped.id@2.0" = { id := "@scoped.id", required := true, version := "2.0" } := by
  refine ⟨?_, ?_, ?_, by decide, by decide, by decide⟩
  · intro tok i hi hat hlast
    unfold parseDependency
    rw [lastIndexOfChar_eq_some tok.data '@' i hat hlast]
    dsimp only
    rw [if_pos hi]
  · intro tok h
    unfold parseDependency
    cases hrec : lastIndexOfChar tok.data '@' with
    | none => rfl
    | some k =>
      cases k with
      | zero => rfl
      | succ k' =>
        exfalso
        have hat := lastIndexOfChar_sound tok.data '@' (k' + 1) hrec
        have hlen : k' + 1 < tok.data.length := by
          by_contra hge
          rw [List.getElem?_eq_none (Nat.le_of_not_lt hge)] at hat
          exact Option.noConfusion hat
        exact h (k' + 1) hlen (Nat.succ_pos k') hat
  · intro tok
    unfold parseDependency
    cases lastIndexOfChar tok.data '@' with
    | none => rfl
    | some k =>
      dsimp only
      by_cases hk : 0 < k
      · rw [if_pos hk]
      · rw [if_neg hk]

/-- C2 witness: the splitting rule applied at the concrete token
`@scoped.id@2.0`, whose last `@` sits at position 10. -/
theorem dependency_parser_splits_on_last_at_witness :
    parseDependency "@scoped.id@2.0"
      = { id := "@scoped.id", required := true, version := "2.0" } := by
  rw [dependency_parser_splits_on_last_at.1 "@scoped.id@2.0" 10 (by decide) (by decide)
    (by decide)]
  decide

/-- C6 counterexample: `addFileToZip` classifies by suffix match, so the
path `MYLICENSE` — whose extension is not in the claimed list and which is
not named exactly `LICENSE` or `.gitkeep` — is nevertheless written as
text, contradicting the claimed iff. -/
theorem zip_text_rule_cex :
    addFileToZip "MYLICENSE" (some "B64DATA") = ZipWrite.text "B64DATA"
  ∧ specTextFile "MYLICENSE" = false := by
  decide

/-- C6 (amended): an entry with defined content is written as text iff its
path ends with one of the nine suffixes `.json`, `.txt`, `.cpp`, `.md`,
`.yml`, `.gitignore`, `LICENSE`, `.gitkeep`, `.plist` (a suffix match, not
an exact-name or extension match), and as base64-decoded binary otherwise;
undefined content is skipped. -/
theorem zip_text_rule_amended (p c : String) :
    (addFileToZip p (some c) = ZipWrite.text c ∨ addFileToZip p (some c) = ZipWrite.binaryBase64 c)
  ∧ (addFileToZip p (some c) = ZipWrite.text c ↔ isTextFile p = true)
  ∧ (isTextFile p = true ↔
      (jsEndsWith p ".json" = true ∨ jsEndsWith p ".txt" = true ∨ jsEndsWith p ".cpp" = true
        ∨ jsEndsWith p ".md" = true ∨ jsEndsWith p ".yml" = true
        ∨ jsEndsWith p ".gitignore" = true ∨ jsEndsWith p "LICENSE" = true
        ∨ jsEndsWith p ".gitkeep" = true ∨ jsEndsWith p ".plist" = true))
  ∧ addFileToZip p none = ZipWrite.skipped := by
  refine ⟨?_, ?_, ?_, rfl⟩
  · by_cases h : isTextFile p = true
    · exact Or.inl (by simp [addFileToZip, h])
    · exact Or.inr (by simp [addFileToZip, h])
  · by_cases h : isTextFile p = true
    · simp [addFileToZip, h]
    · simp [addFileToZip, h]
  · simp [isTextFile, textFileSuffixes, List.any_cons, List.any_nil, Bool.or_eq_true]

/-- C7: the platform-version map of the generated manifest has exactly the
enabled platforms as keys, each mapped to the target game version, or `*`
when that string is empty; and the manifest's `gd` member is exactly that
map. -/
theorem manifest_platform_map (data : ModData) :
    ((rget (gdMap data) "win").isSome = data.platforms.win)
  ∧ ((rget (gdMap data) "mac").isSome = data.platforms.mac)
  ∧ ((rget (gdMap data) "android").isSome = data.platforms.android)
  ∧ ((rget (gdMap data) "ios").isSome = data.platforms.ios)
  ∧ (∀ e, e ∈ gdMap data →
      (e.1 = "win" ∨ e.1 = "mac" ∨ e.1 = "android" ∨ e.1 = "ios")
      ∧ e.2 = (if data.gdVersion = "" then "*" else data.gdVersion))
  ∧ rget (generateModJsonMembers data) "gd"
      = some (Json.obj ((gdMap data).map (fun e => (e.1, Json.str e.2)))) := by
  cases hw : data.platforms.win <;> cases hm : data.platforms.mac <;>
    cases ha : data.platforms.android <;> cases hi : data.platforms.ios <;>
    refine ⟨?_, ?_, ?_, ?_, ?_, rget_generateModJsonMembers_gd data⟩ <;>
    simp [gdMap, hw, hm, ha, hi, oset, rget_cons, rget, jsOr]

/-- C7 witness: the map entry for an enabled platform of the initial
configuration, whose target version `*` is non-empty. -/
theorem manifest_platform_map_witness :
    ("win" = "win" ∨ "win" = "mac" ∨ "win" = "android" ∨ "win" = "ios")
    ∧ "*" = (if initialModData.gdVersion = "" then "*" else initialModData.gdVersion) :=
  (manifest_platform_map initialModData).2.2.2.2.1 ("win", "*") (by decide)

/-- C8: changing a setting's type tag through `handleSettingChange` resets
its default to the new type's canonical zero value (`false` / `0` / `0.0` /
`""`), so no cross-type default ever persists; including the concrete
string→integer and bool→float instances. -/
theorem setting_type_change_resets_default :
    (∀ (settings : List ModSetting) (sid : String) (t : ModSettingType) (s' : ModSetting),
        s' ∈ handleSettingChange settings sid (.typeTag t) → s'.id = sid →
        s'.type = t ∧ s'.default = canonicalDefault t)
  ∧ canonicalDefault .bool = .b false
  ∧ canonicalDefault .int = .num 0
  ∧ canonicalDefault .float = .num 0
  ∧ canonicalDefault .string = .str ""
  ∧ handleSettingChange
      [{ id := "s1", key := "k", name := "n", description := "d",
         type := .string, default := .str "hello" }] "s1" (.typeTag .int)
      = [{ id := "s1", key := "k", name := "n", description := "d",
           type := .int, default := .num 0 }]
  ∧ handleSettingChange
      [{ id := "s2", key := "k", name := "n", description := "d",
         type := .bool, default := .b true }] "s2" (.typeTag .float)
      = [{ id := "s2", key := "k", name := "n", description := "d",
           type := .float, default := .num 0 }] := by
  refine ⟨?_, rfl, rfl, rfl, rfl, by decide, by decide⟩
  intro settings sid t s' hs' hid
  unfold handleSettingChange at hs'
  obtain ⟨s, hsmem, heq⟩ := List.mem_map.mp hs'
  by_cases h : s.id = sid
  · rw [if_pos h] at heq
    dsimp only at heq
    subst heq
    exact ⟨rfl, rfl⟩
  · rw [if_neg h] at heq
    subst heq
    exact absurd hid h

/-- C8 witness: the general reset rule applied to the concrete
string→integer instance. -/
theorem setting_type_change_resets_default_witness :
    ({ id := "s1", key := "k", name := "n", description := "d",
       type := ModSettingType.int, default := JsVal.num 0 } : ModSetting).type
        = ModSettingType.int
  ∧ ({ id := "s1", key := "k", name := "n", description := "d",
       type := ModSettingType.int, default := JsVal.num 0 } : ModSetting).default
        = canonicalDefault ModSettingType.int :=
  setting_type_change_resets_default.1
    [{ id := "s1", key := "k", name := "n", description := "d",
       type := .string, default := .str "hello" }]
    "s1" .int
    { id := "s1", key := "k", name := "n", description := "d",
      type := .int, default := .num 0 }
    (by decide) (by decide)

/-- C10: in an AI file batch, every entry whose `filePath` or `fileContent`
is missing or empty is silently skipped — the tree is unchanged at any path
no valid entry targets — while the valid entries of the same batch are
still inserted or overwritten (the last valid entry for a path wins). -/
theorem file_batch_skips_invalid_entries (prev : Option Tree) (files : List BatchFile)
    (p : String) :
    ((∀ f, f ∈ files → (jsTruthyS f.filePath && jsTruthyS f.fileContent) = true →
        f.filePath.getD "" ≠ p) →
      rget (applyFileBatch prev files) p = rget (prev.getD []) p)
  ∧ (∀ f, f ∈ files → (jsTruthyS f.filePath && jsTruthyS f.fileContent) = true →
      (rget (applyFileBatch prev files) (f.filePath.getD "")).isSome = true)
  ∧ (∀ c, lastValidContent files p = some c → rget (applyFileBatch prev files) p = some c) := by
  refine ⟨?_, ?_, ?_⟩
  · intro h
    rw [rget_applyFileBatch, lastValidContent_eq_none files p h]
  · intro f hf hv
    rw [rget_applyFileBatch]
    have hsome := lastValidContent_isSome_of_mem files f hf hv
    cases hlv : lastValidContent files (f.filePath.getD "") with
    | some c => simp
    | none => rw [hlv] at hsome; simp at hsome
  · intro c hc
    rw [rget_applyFileBatch, hc]

/-- C10 witness: a batch whose three entries all have a missing or empty
path or content leaves the tree unchanged at the targeted path. -/
theorem file_batch_skips_invalid_entries_witness :
    rget (applyFileBatch (some [("a", "1")])
        [{ filePath := some "", fileContent := some "x" },
         { filePath := none, fileContent := some "y" },
         { filePath := some "b", fileContent := none }]) "a"
      = rget ((some [("a", "1")] : Option Tree).getD []) "a" :=
  (file_batch_skips_invalid_entries _ _ _).1 (by decide)

/-- C1 counterexample: the AI file-batch path does not remove
`assets/.gitkeep`: merging a valid entry under `assets/` into a tree that
holds the placeholder leaves `assets/.gitkeep` present (the claim says it
must be absent), even though the entry itself is merged. -/
theorem mergeMany_gitkeep_cex :
    jsStartsWith "assets/foo.png" "assets/" = true
  ∧ rget (applyFileBatch (some [("assets/.gitkeep", "")])
      [{ filePath := some "assets/foo.png", fileContent := some "PNGDATA" }]) "assets/foo.png"
      = some "PNGDATA"
  ∧ rget (applyFileBatch (some [("assets/.gitkeep", "")])
      [{ filePath := some "assets/foo.png", fileContent := some "PNGDATA" }]) "assets/.gitkeep"
      = some "" := by
  decide

/-- C1 (amended): a file batch inserts or overwrites all its valid entries
but never removes `assets/.gitkeep` (a present placeholder stays present);
it is the asset-generation tool-call path that removes `assets/.gitkeep`,
unconditionally. -/
theorem mergeMany_gitkeep_amended (prev : Option Tree) (files : List BatchFile) :
    ((rget (prev.getD []) "assets/.gitkeep").isSome = true →
      (rget (applyFileBatch prev files) "assets/.gitkeep").isSome = true)
  ∧ (∀ f, f ∈ files → (jsTruthyS f.filePath && jsTruthyS f.fileContent) = true →
      (rget (applyFileBatch prev files) (f.filePath.getD "")).isSome = true)
  ∧ (∀ fileName imageB64 plistContent,
      rget (applyAssetToolCall prev fileName imageB64 plistContent) "assets/.gitkeep" = none) := by
  refine ⟨?_, ?_, fun fn img pl => rget_applyAssetToolCall_gitkeep prev fn img pl⟩
  · intro h
    rw [rget_applyFileBatch]
    cases hlv : lastValidContent files "assets/.gitkeep" with
    | some c => simp
    | none => simpa using h
  · intro f hf hv
    rw [rget_applyFileBatch]
    have hsome := lastValidContent_isSome_of_mem files f hf hv
    cases hlv : lastValidContent files (f.filePath.getD "") with
    | some c => simp
    | none => rw [hlv] at hsome; simp at hsome

/-- C1 witness: the placeholder survives the concrete batch of the
counterexample. -/
theorem mergeMany_gitkeep_amended_witness :
    (rget (applyFileBatch (some [("assets/.gitkeep", "")])
      [{ filePath := some "assets/foo.png", fileContent := some "PNGDATA" }])
      "assets/.gitkeep").isSome = true :=
  (mergeMany_gitkeep_amended _ _).1 (by decide)

/-- C4: `generateFiles` re-layers onto the fresh base tree every entry of
the previous tree whose path is under `assets/` and is neither
`assets/logo.png` nor `assets/.gitkeep`, with its content unchanged. -/
theorem regenerate_preserves_assets (md : ModData) (prev : Tree) (y : Nat) (q c : String)
    (h1 : jsStartsWith q "assets/" = true) (h2 : q ≠ "assets/logo.png")
    (h3 : q ≠ "assets/.gitkeep") (h4 : rget prev q = some c) :
    rget (generateFiles md (some prev) y) q = some c := by
  have hcond : preserveCond q = true := by
    simp [preserveCond, h1, h2, h3]
  have hmem : ∃ e, e ∈ prev ∧ e.1 = q := rget_exists_of_some prev q c h4
  unfold generateFiles preserveAssets
  dsimp only
  rw [rget_preserveFold_mem _ _ _ _ hcond hmem, h4]
  rfl

/-- C4 witness: a previously added `assets/extra.png` entry is present,
unchanged, after regeneration from a complete configuration. -/
theorem regenerate_preserves_assets_witness :
    rget (generateFiles
      { initialModData with id := "com.example.mod", name := "Example", developer := "Dev" }
      (some [("assets/extra.png", "BASE64PNG")]) 2025) "assets/extra.png"
      = some "BASE64PNG" :=
  regenerate_preserves_assets _ _ 2025 _ _ (by decide) (by decide) (by decide) (by decide)

/-- C9: every tree produced by `regenerate` contains `assets/.gitkeep` with
empty content, whatever the logo and the previous tree's contents. -/
theorem regenerate_inserts_gitkeep (md : ModData) (prev : Option Tree) (y : Nat) (t : Tree)
    (h : regenerate md prev y = some t) : rget t "assets/.gitkeep" = some "" := by
  unfold regenerate at h
  by_cases hc : (jsTruthyStr md.id && jsTruthyStr md.name && jsTruthyStr md.developer) = true
  · rw [if_pos hc] at h
    have ht : t = generateFiles md prev y := (Option.some.inj h).symm
    subst ht
    unfold generateFiles
    cases prev with
    | none =>
      dsimp only
      rw [rget_withLogo_ne _ _ _ (by decide), rget_withCi_ne _ _ _ (by decide),
        rget_baseFiles_gitkeep]
    | some p =>
      dsimp only
      unfold preserveAssets
      rw [rget_preserveFold_skip _ _ _ _ (by decide), rget_withLogo_ne _ _ _ (by decide),
        rget_withCi_ne _ _ _ (by decide), rget_baseFiles_gitkeep]
  · rw [if_neg hc] at h
    exact absurd h (Option.noConfusion)

/-- C9 witness: the placeholder is present with empty content after a
regeneration whose previous tree held other asset entries and no
placeholder. -/
theorem regenerate_inserts_gitkeep_witness :
    rget (generateFiles
      { initialModData with id := "com.example.mod", name := "Example", developer := "Dev" }
      (some [("assets/extra.png", "AAAA")]) 2025) "assets/.gitkeep" = some "" :=
  regenerate_inserts_gitkeep
    { initialModData with id := "com.example.mod", name := "Example", developer := "Dev" }
    (some [("assets/extra.png", "AAAA")]) 2025
    (generateFiles
      { initialModData with id := "com.example.mod", name := "Example", developer := "Dev" }
      (some [("assets/extra.png", "AAAA")]) 2025)
    (by unfold regenerate; rw [if_pos (by decide)])

/-- C5: the tree is fully replaced by the generator's output whenever the
three required fields (identifier, name, developer) are all non-empty, and
cleared to absent whenever any of them is empty; a malformed but non-empty
identifier does not prevent generation. -/
theorem required_field_gating (md : ModData) (prev : Option Tree) (y : Nat) :
    ((md.id = "" ∨ md.name = "" ∨ md.developer = "") → regenerate md prev y = none)
  ∧ (md.id ≠ "" → md.name ≠ "" → md.developer ≠ "" →
      regenerate md prev y = some (generateFiles md prev y))
  ∧ (idValid md.id = false → md.id ≠ "" → md.name ≠ "" → md.developer ≠ "" →
      (regenerate md prev y).isSome = true) := by
  have key : md.id ≠ "" → md.name ≠ "" → md.developer ≠ "" →
      regenerate md prev y = some (generateFiles md prev y) := by
    intro h1 h2 h3
    have hc : (jsTruthyStr md.id && jsTruthyStr md.name && jsTruthyStr md.developer) = true := by
      simp [jsTruthyStr, h1, h2, h3]
    unfold regenerate
    rw [if_pos hc]
  have clear : (md.id = "" ∨ md.name = "" ∨ md.developer = "") → regenerate md prev y = none := by
    intro h
    have hc : (jsTruthyStr md.id && jsTruthyStr md.name && jsTruthyStr md.developer) = false := by
      rcases h with h | h | h <;> simp [jsTruthyStr, h]
    simp [regenerate, hc]
  have third : idValid md.id = false → md.id ≠ "" → md.name ≠ "" → md.developer ≠ "" →
      (regenerate md prev y).isSome = true := by
    intro _ h1 h2 h3
    rw [key h1 h2 h3]
    rfl
  exact ⟨clear, key, third⟩

/-- C5 witness: clearing `developer` on an otherwise complete configuration
yields an absent tree, while an id that fails the validation pattern but is
non-empty still generates. -/
theorem required_field_gating_witness :
    regenerate { initialModData with id := "com.example.mod", name := "Example" } none 2025
      = none
  ∧ (regenerate
      { initialModData with id := "NOT A VALID ID", name := "Example", developer := "Dev" }
      none 2025).isSome = true
  ∧ idValid "NOT A VALID ID" = false :=
  ⟨(required_field_gating _ none 2025).1 (Or.inr (Or.inr rfl)),
   (required_field_gating _ none 2025).2.2 (by decide) (by decide) (by decide) (by decide),
   by decide⟩

/-- C3: two runs of the generator on the same configuration (and the same
previous tree) produce trees with identical entry keys and identical
contents at every path other than `LICENSE`; the `LICENSE` entry is exactly
the license text stamped with the run's wall-clock year, the one permitted
difference. -/
theorem generator_deterministic_modulo_license_year (md : ModData) (prev : Option Tree)
    (y₁ y₂ : Nat) :
    ((generateFiles md prev y₁).map Prod.fst = (generateFiles md prev y₂).map Prod.fst)
  ∧ (∀ p, p ≠ "LICENSE" →
      rget (generateFiles md prev y₁) p = rget (generateFiles md prev y₂) p)
  ∧ rget (generateFiles md prev y₁) "LICENSE" = some (generateLicense md y₁) := by
  have hteq : TreeEqExcept "LICENSE" (generateFiles md prev y₁) (generateFiles md prev y₂) := by
    unfold generateFiles
    cases prev with
    | none =>
      exact teq_withLogo md (teq_withCi md (teq_baseFiles md y₁ y₂))
    | some p =>
      exact teq_preserveFold p p (teq_withLogo md (teq_withCi md (teq_baseFiles md y₁ y₂)))
  refine ⟨teq_keys hteq, fun p hp => teq_rget hteq p hp, ?_⟩
  unfold generateFiles
  cases prev with
  | none =>
    dsimp only
    rw [rget_withLogo_ne _ _ _ (by decide), rget_withCi_ne _ _ _ (by decide),
      rget_baseFiles_license]
  | some p =>
    dsimp only
    unfold preserveAssets
    rw [rget_preserveFold_skip _ _ _ _ (by decide), rget_withLogo_ne _ _ _ (by decide),
      rget_withCi_ne _ _ _ (by decide), rget_baseFiles_license]

/-- C3 witness: the `mod.json` entry is identical across two generations of
the initial configuration in different years. -/
theorem generator_deterministic_modulo_license_year_witness :
    rget (generateFiles initialModData none 2024) "mod.json"
      = rget (generateFiles initialModData none 2025) "mod.json" :=
  (generator_deterministic_modulo_license_year initialModData none 2024 2025).2.1
    "mod.json" (by decide)

end Geode
